import Mathlib

/-!
Verification of the durable-storage access layer of the mito2 engine:
`AccessLayer` (SST write / delete, metadata-cache population, fs store
provisioning, `src/mito2/src/access_layer.rs`) and the scratch-file
provider for external index construction (`TempFileProvider`,
`src/mito2/src/sst/index/creator/temp_provider.rs`).

Modelling conventions:
- storage paths are segment lists (`StorePath := List String`);
- the object store is explicit state (`FsState`): a list of files
  (path, bytes) plus a list of directory-marker paths, so listings can
  contain directory entries as some backends produce;
- async I/O is modelled by explicit state passing; external collaborators
  (the opendal backend, the write cache, the parquet writer) are
  parameters or oracles, so every behavior of theirs is quantified over;
- machine integers do not occur on the verified paths; bytes are `Nat`.
-/

/-- A storage path, as a list of path segments. -/
abbrev StorePath : Type := List String

/-- File contents: a byte sequence. -/
abbrev ByteSeq : Type := List Nat

/-- A listing entry: a path together with whether the backend classified it
as a directory. -/
structure Entry where
  path : StorePath
  is_dir : Bool
deriving DecidableEq

/-- The modelled object-store state: committed files and directory markers.
Directory markers let a listing include directory-classified entries, which
some backends produce. -/
structure FsState where
  files : List (StorePath × ByteSeq)
  dirs : List StorePath
deriving DecidableEq

/-- `underPath p q`: `q` lies under the prefix `p`. -/
def underPath (p q : StorePath) : Bool :=
  p.isPrefixOf q

/-- List every entry under a prefix: directory markers first (classified as
directories), then files. -/
def FsState.list (s : FsState) (p : StorePath) : List Entry :=
  (s.dirs.filter (fun d => underPath p d)).map (fun d => ⟨d, true⟩) ++
    (s.files.filter (fun f => underPath p f.1)).map (fun f => ⟨f.1, false⟩)

/-- Read the contents at a path, if a file exists there. -/
def FsState.read (s : FsState) (p : StorePath) : Option ByteSeq :=
  (s.files.find? (fun f => f.1 == p)).map (fun f => f.2)

/-- Write (create or overwrite) the file at a path. -/
def FsState.writeFile (s : FsState) (p : StorePath) (b : ByteSeq) : FsState :=
  { s with files := (p, b) :: s.files.filter (fun f => !(f.1 == p)) }

/-- Recursively remove everything under a prefix (files and markers). -/
def FsState.remove_all (s : FsState) (p : StorePath) : FsState :=
  { files := s.files.filter (fun f => !(underPath p f.1)),
    dirs := s.dirs.filter (fun d => !(underPath p d)) }

/-- The empty store. -/
def FsState.empty : FsState :=
  { files := [], dirs := [] }

/-- Modelled from the spec: `location::sst_file_path` (the Location Resolver
of `src/mito2/src/sst/location.rs` is not under `src/`): the deterministic
SST path for a file id under a region directory. -/
def sst_file_path (region_dir : String) (file_id : String) : StorePath :=
  [region_dir, file_id ++ ".parquet"]

/-- Modelled from the spec: `location::index_file_path` (source not under
`src/`): the deterministic inverted-index path for a file id under a region
directory, distinct from the SST path. -/
def index_file_path (region_dir : String) (file_id : String) : StorePath :=
  [region_dir, "index", file_id ++ ".puffin"]

/-- Descriptor of a committed SST (`FileMeta` of `sst/file.rs`): file id,
owning region, and whether an inverted index file exists for it. -/
structure FileMeta where
  region_id : Nat
  file_id : String
  inverted_index_available : Bool
deriving DecidableEq

/-- Errors of the access layer relevant to the verified paths, mirroring
`DeleteSstSnafu` and `DeleteIndexSnafu` of `error.rs`: each carries the
file id of the failed deletion. -/
inductive DeleteError where
  | deleteSst (file_id : String)
  | deleteIndex (file_id : String)
deriving DecidableEq

/-- The per-region access layer: owns a region directory (the object store
handle is modelled by the explicit state / oracles of each operation). -/
structure AccessLayer where
  region_dir : String
deriving DecidableEq

/-- `AccessLayer::delete_sst`: deletes the SST file; if
`inverted_index_available`, then deletes the index file. The backend's
response to each delete is the oracle `deleteOk` (the store is an external
capability that may fail on any call). Returns the sequence of delete
calls issued, in order, together with the result: an SST-delete error
aborts before the index delete, mirroring the `?` propagation in the
source. -/
def AccessLayer.delete_sst (layer : AccessLayer) (deleteOk : StorePath → Bool)
    (file_meta : FileMeta) : List StorePath × Except DeleteError Unit :=
  let path := sst_file_path layer.region_dir file_meta.file_id
  if deleteOk path then
    if file_meta.inverted_index_available then
      let ipath := index_file_path layer.region_dir file_meta.file_id
      if deleteOk ipath then
        ([path, ipath], Except.ok ())
      else
        ([path, ipath], Except.error (DeleteError.deleteIndex file_meta.file_id))
    else
      ([path], Except.ok ())
  else
    ([path], Except.error (DeleteError.deleteSst file_meta.file_id))

/-- Region metadata (`RegionMetadataRef`): only the region id is consumed by
`write_sst`; the rest of the schema is opaque to the verified paths. -/
structure RegionMetadata where
  region_id : Nat
deriving DecidableEq

/-- A `Source` of row batches: each element is one batch's row count. The
access layer never inspects it, only forwards it to the writer. -/
abbrev Source : Type := List Nat

/-- Result of a successful write (`SstInfo`): carries the optionally parsed
file-level (parquet) metadata, modelled opaquely as a `Nat`. -/
structure SstInfo where
  file_metadata : Option Nat
deriving DecidableEq

/-- Write options for the parquet writer; opaque to the access layer. -/
structure WriteOptions where
deriving DecidableEq

/-- A store-level error, opaque at this granularity. -/
abbrev StoreErr : Type := String

/-- `SstUploadRequest`: the bundle `write_sst` hands to the write cache,
including both computed destination paths. The remote store handle is
implicit (the layer's own store). -/
structure SstUploadRequest where
  file_id : String
  metadata : RegionMetadata
  source : Source
  storage : Option String
  upload_path : StorePath
  index_upload_path : StorePath
deriving DecidableEq

/-- Behavior of an (external) write cache: given the store state, an upload
request and write options, produces the next store state and the result.
Quantifying over this type covers every cache behavior, including failures. -/
abbrev WriteCacheB : Type :=
  FsState → SstUploadRequest → WriteOptions → FsState × Except StoreErr (Option SstInfo)

/-- Behavior of the parquet writer (`ParquetWriter::new` + `write_all`):
given the store state, the destination path, the region metadata and the
source, produces the next store state and the result. -/
abbrev ParquetWriterB : Type :=
  FsState → StorePath → RegionMetadata → Source → WriteOptions →
    FsState × Except StoreErr (Option SstInfo)

/-- The cache manager capability: optionally supplies a write cache
(`CacheManager::write_cache`). Metadata population
(`put_parquet_meta_data`) returns unit in the source — it cannot fail —
and is recorded as a trace event by `write_sst`. -/
structure CacheManager where
  write_cache : Option WriteCacheB

/-- `SstWriteRequest`: contents to build an SST. -/
structure SstWriteRequest where
  file_id : String
  metadata : RegionMetadata
  source : Source
  cache_manager : CacheManager
  storage : Option String

/-- Observable events of one `write_sst` call, in order: delegation to the
write cache (with the exact upload request), a direct parquet write (with
the exact path, metadata and source handed to the writer), and the
metadata-cache population keyed by (region id, file id). -/
inductive WriteEvent where
  | cacheWrite (upload : SstUploadRequest)
  | directWrite (file_path : StorePath) (metadata : RegionMetadata) (source : Source)
  | putMeta (region_id : Nat) (file_id : String) (parquet_metadata : Nat)
deriving DecidableEq

/-- Whether an event is a delegation to the write cache. -/
def WriteEvent.isCacheWrite : WriteEvent → Bool
  | WriteEvent.cacheWrite _ => true
  | _ => false

/-- Whether an event is a direct parquet write. -/
def WriteEvent.isDirectWrite : WriteEvent → Bool
  | WriteEvent.directWrite _ _ _ => true
  | _ => false

/-- Whether an event performs the underlying write (either branch). -/
def WriteEvent.isWrite (e : WriteEvent) : Bool :=
  e.isCacheWrite || e.isDirectWrite

/-- Whether an event touches (reads, writes or uploads to) a given path. -/
def WriteEvent.touches (p : StorePath) : WriteEvent → Bool
  | WriteEvent.cacheWrite u => u.upload_path == p || u.index_upload_path == p
  | WriteEvent.directWrite q _ _ => q == p
  | WriteEvent.putMeta _ _ _ => false

/-- The upload request `write_sst` constructs for the write cache branch. -/
def mkUploadRequest (layer : AccessLayer) (request : SstWriteRequest) : SstUploadRequest :=
  { file_id := request.file_id
    metadata := request.metadata
    source := request.source
    storage := request.storage
    upload_path := sst_file_path layer.region_dir request.file_id
    index_upload_path := index_file_path layer.region_dir request.file_id }

/-- The tail of `write_sst` (source lines 132–143): if the branch produced
an `SstInfo` carrying parsed file metadata, push it into the cache manager
keyed by (region id, file id) — recorded as a `putMeta` event — and return
the branch's result unchanged. `put_parquet_meta_data` returns unit in the
source, so this step can never fail nor alter the result. -/
def putMetaStep (s : FsState) (trace : List WriteEvent) (region_id : Nat)
    (file_id : String) (sst_info : Option SstInfo) :
    FsState × List WriteEvent × Except StoreErr (Option SstInfo) :=
  match sst_info with
  | some si =>
    match si.file_metadata with
    | some m => (s, trace ++ [WriteEvent.putMeta region_id file_id m], Except.ok sst_info)
    | none => (s, trace, Except.ok sst_info)
  | none => (s, trace, Except.ok sst_info)

/-- `AccessLayer::write_sst`: computes the SST and index paths from the
file id; if the cache manager supplies a write cache, delegates the entire
write to it with an `SstUploadRequest`; otherwise constructs a direct
parquet writer on the SST path and drains the source into it (behavior
`pwB`). On branch success, parsed file metadata — when present — is pushed
to the cache manager. Returns the next store state, the ordered event
trace, and the result. -/
def AccessLayer.write_sst (layer : AccessLayer) (pwB : ParquetWriterB)
    (s : FsState) (request : SstWriteRequest) (write_opts : WriteOptions) :
    FsState × List WriteEvent × Except StoreErr (Option SstInfo) :=
  let file_path := sst_file_path layer.region_dir request.file_id
  let region_id := request.metadata.region_id
  match request.cache_manager.write_cache with
  | some write_cache =>
    let upload := mkUploadRequest layer request
    match write_cache s upload write_opts with
    | (s1, Except.error e) => (s1, [WriteEvent.cacheWrite upload], Except.error e)
    | (s1, Except.ok sst_info) =>
      putMetaStep s1 [WriteEvent.cacheWrite upload] region_id request.file_id sst_info
  | none =>
    match pwB s file_path request.metadata request.source write_opts with
    | (s1, Except.error e) =>
      (s1, [WriteEvent.directWrite file_path request.metadata request.source], Except.error e)
    | (s1, Except.ok sst_info) =>
      putMetaStep s1 [WriteEvent.directWrite file_path request.metadata request.source]
        region_id request.file_id sst_info

/-- Modelled from the spec: `ParquetWriter::write_all` (source not under
`src/`): returns `none` and creates no file when the source yielded no
rows; otherwise commits the file at the destination path and returns an
`SstInfo` with parsed metadata. -/
def parquetWriteAll : ParquetWriterB :=
  fun s path _metadata source _opts =>
    if source.sum = 0 then
      (s, Except.ok none)
    else
      (s.writeFile path source, Except.ok (some { file_metadata := some source.sum }))

/-- Modelled from the spec: `WriteCache::write_and_upload_sst` (source not
under `src/`): same result contract as the direct write — `none` and no
file on an empty source, otherwise the file is uploaded to `upload_path`. -/
def writeCacheModel : WriteCacheB :=
  fun s u _opts =>
    if u.source.sum = 0 then
      (s, Except.ok none)
    else
      (s.writeFile u.upload_path u.source, Except.ok (some { file_metadata := some u.source.sum }))

/-- Modelled from the spec: `IntermediateLocation` (source not under
`src/`): deterministic mapping of (region directory, build id) to a scratch
root, further keyed by column and run (intermediate file) identifiers.
Pure value, no I/O. -/
structure IntermediateLocation where
  region_dir : String
  sst_file_id : String
deriving DecidableEq

/-- The build-scoped scratch root. -/
def IntermediateLocation.root_path (loc : IntermediateLocation) : StorePath :=
  [loc.region_dir, "__intermediate", loc.sst_file_id]

/-- The scoped path of one column's runs. -/
def IntermediateLocation.column_path (loc : IntermediateLocation) (column_id : String) : StorePath :=
  loc.root_path ++ [column_id]

/-- The scratch-file path of one (column, run) pair. -/
def IntermediateLocation.file_path (loc : IntermediateLocation)
    (column_id : String) (file_id : String) : StorePath :=
  loc.column_path column_id ++ [file_id]

/-- `TempFileProvider`: scratch-file manager for one index build. The
instrumented store it holds is modelled by the explicit `FsState` each
operation takes (the `InstrumentedStore` wrapper adds only metrics
counters, which affect no result). -/
structure TempFileProvider where
  location : IntermediateLocation
deriving DecidableEq

/-- `TempFileProvider::create`: resolves the deterministic scratch path for
`(column_id, file_id)` and opens a write handle there; the handle is
identified with its path, and writing bytes through it (write + flush +
close) is `FsState.writeFile` at that path. -/
def TempFileProvider.create (p : TempFileProvider)
    (column_id : String) (file_id : String) : StorePath :=
  p.location.file_path column_id file_id

/-- Writing bytes through a scratch handle, then flushing and closing it. -/
def writeThrough (s : FsState) (handle : StorePath) (b : ByteSeq) : FsState :=
  s.writeFile handle b

/-- The loop of `read_all` over the listing: a directory-classified entry
is skipped and its path recorded as a warning diagnostic; any other entry
is opened as a read handle (modelled by its contents). An entry that
cannot be opened is a store error. -/
def read_all_go (s : FsState) (entries : List Entry)
    (warns : List StorePath) (readers : List ByteSeq) :
    List StorePath × Except StoreErr (List ByteSeq) :=
  match entries with
  | [] => (warns.reverse, Except.ok readers.reverse)
  | e :: rest =>
    if e.is_dir then
      read_all_go s rest (e.path :: warns) readers
    else
      match s.read e.path with
      | some b => read_all_go s rest warns (b :: readers)
      | none => (warns.reverse, Except.error "reader")

/-- `TempFileProvider::read_all`: lists the column's scoped path and opens
a reader for every non-directory entry; directory-classified entries are
skipped with a warning diagnostic. Returns the warnings and the readers. -/
def TempFileProvider.read_all (p : TempFileProvider) (s : FsState)
    (column_id : String) : List StorePath × Except StoreErr (List ByteSeq) :=
  read_all_go s (s.list (p.location.column_path column_id)) [] []

/-- `TempFileProvider::cleanup`: removes everything under this build's
scratch root via the store's `remove_all` (which succeeds also when
nothing is present). -/
def TempFileProvider.cleanup (p : TempFileProvider) (s : FsState) :
    Except StoreErr FsState :=
  Except.ok (s.remove_all p.location.root_path)

/-- Modelled from the spec: `object_store::util::join_dir` (source not
under `src/`) joining the region root with the `.tmp/` staging
subdirectory name. -/
def atomicWriteDir (root : String) : StorePath :=
  [root, ".tmp"]

/-- `clean_dir`: if the directory exists, recursively remove it (the
filesystem calls themselves are modelled as succeeding; their failures are
backend failures outside the model). -/
def clean_dir (s : FsState) (dir : StorePath) : Except StoreErr FsState :=
  if (s.list dir != []) || s.dirs.contains dir then
    Except.ok (s.remove_all dir)
  else
    Except.ok s

/-- The provisioned store configuration: root, registered atomic-write
staging directory, and the instrumentation wrapper. -/
structure FsObjectStore where
  root : String
  atomic_write_dir : StorePath
  instrumented : Bool
deriving DecidableEq

/-- `new_fs_object_store`: computes the staging directory `root/.tmp/`,
clears any pre-existing contents of it, builds the fs store configured
with that atomic-write directory, and wraps it with instrumentation
layers before returning it. -/
def new_fs_object_store (root : String) (s : FsState) :
    Except StoreErr (FsObjectStore × FsState) :=
  match clean_dir s (atomicWriteDir root) with
  | Except.error e => Except.error e
  | Except.ok s1 =>
    Except.ok ({ root := root, atomic_write_dir := atomicWriteDir root, instrumented := true }, s1)

/-- The metadata-cache events emitted for a given branch result. -/
def putMetaTail (region_id : Nat) (file_id : String) (sst_info : Option SstInfo) :
    List WriteEvent :=
  match sst_info with
  | some si =>
    match si.file_metadata with
    | some m => [WriteEvent.putMeta region_id file_id m]
    | none => []
  | none => []

lemma putMetaStep_eq (s : FsState) (trace : List WriteEvent) (region_id : Nat)
    (file_id : String) (sst_info : Option SstInfo) :
    putMetaStep s trace region_id file_id sst_info =
      (s, trace ++ putMetaTail region_id file_id sst_info, Except.ok sst_info) := by
  cases sst_info with
  | none => simp [putMetaStep, putMetaTail]
  | some si =>
    cases h : si.file_metadata with
    | none => simp [putMetaStep, putMetaTail, h]
    | some m => simp [putMetaStep, putMetaTail, h]

lemma putMetaTail_isWrite (region_id : Nat) (file_id : String)
    (sst_info : Option SstInfo) :
    ∀ e ∈ putMetaTail region_id file_id sst_info, e.isWrite = false := by
  cases sst_info with
  | none => simp [putMetaTail]
  | some si =>
    cases h : si.file_metadata with
    | none => simp [putMetaTail, h]
    | some m => simp [putMetaTail, h, WriteEvent.isWrite, WriteEvent.isCacheWrite,
        WriteEvent.isDirectWrite]

/-- C1: for every FileMeta, a `delete_sst` call that completes successfully
issues exactly one store delete call (the SST path) when
`inverted_index_available = false`, and exactly two — the SST path strictly
before the index path — when it is `true`. -/
theorem delete_sst_call_counts (layer : AccessLayer) (deleteOk : StorePath → Bool)
    (fm : FileMeta)
    (h : (layer.delete_sst deleteOk fm).2 = Except.ok ()) :
    (layer.delete_sst deleteOk fm).1 =
      if fm.inverted_index_available then
        [sst_file_path layer.region_dir fm.file_id,
          index_file_path layer.region_dir fm.file_id]
      else
        [sst_file_path layer.region_dir fm.file_id] := by
  unfold AccessLayer.delete_sst at h ⊢
  by_cases h1 : deleteOk (sst_file_path layer.region_dir fm.file_id) <;>
    by_cases h2 : fm.inverted_index_available <;>
      by_cases h3 : deleteOk (index_file_path layer.region_dir fm.file_id) <;>
        simp_all

/-- Witness for C1 at a concrete layer, oracle and FileMeta. -/
theorem delete_sst_call_counts_witness :
    (AccessLayer.delete_sst ⟨"r"⟩ (fun _ => true) ⟨1, "f", true⟩).2 = Except.ok () ∧
    (AccessLayer.delete_sst ⟨"r"⟩ (fun _ => true) ⟨1, "f", true⟩).1 =
      [sst_file_path "r" "f", index_file_path "r" "f"] :=
  ⟨rfl, by
    have h := delete_sst_call_counts ⟨"r"⟩ (fun _ => true) ⟨1, "f", true⟩ rfl
    simpa using h⟩

/-- C5: if the SST deletion fails, the index deletion is not attempted (the
call trace is the SST path alone) and the result is the SST-delete error
carrying the FileId; if the SST deletion succeeds and the index deletion
fails, both calls were issued and the result is the distinct index-delete
error carrying the FileId. -/
theorem delete_sst_error_distinction (layer : AccessLayer)
    (deleteOk : StorePath → Bool) (fm : FileMeta) :
    (deleteOk (sst_file_path layer.region_dir fm.file_id) = false →
      (layer.delete_sst deleteOk fm).1 = [sst_file_path layer.region_dir fm.file_id] ∧
      (layer.delete_sst deleteOk fm).2 =
        Except.error (DeleteError.deleteSst fm.file_id)) ∧
    (deleteOk (sst_file_path layer.region_dir fm.file_id) = true →
      fm.inverted_index_available = true →
      deleteOk (index_file_path layer.region_dir fm.file_id) = false →
      (layer.delete_sst deleteOk fm).1 =
        [sst_file_path layer.region_dir fm.file_id,
          index_file_path layer.region_dir fm.file_id] ∧
      (layer.delete_sst deleteOk fm).2 =
        Except.error (DeleteError.deleteIndex fm.file_id)) := by
  constructor
  · intro h1
    unfold AccessLayer.delete_sst
    simp [h1]
  · intro h1 h2 h3
    unfold AccessLayer.delete_sst
    simp [h1, h2, h3]

/-- Witness for C5 at a concrete layer, failing oracle and FileMeta. -/
theorem delete_sst_error_distinction_witness :
    (AccessLayer.delete_sst ⟨"r"⟩ (fun _ => false) ⟨1, "f", true⟩).1 =
      [sst_file_path "r" "f"] ∧
    (AccessLayer.delete_sst ⟨"r"⟩ (fun _ => false) ⟨1, "f", true⟩).2 =
      Except.error (DeleteError.deleteSst "f") :=
  (delete_sst_error_distinction ⟨"r"⟩ (fun _ => false) ⟨1, "f", true⟩).1 rfl

/-- The trace events following the write event, as a function of the
branch result. -/
def resultTail (region_id : Nat) (file_id : String) :
    Except StoreErr (Option SstInfo) → List WriteEvent
  | Except.error _ => []
  | Except.ok sst_info => putMetaTail region_id file_id sst_info

lemma resultTail_events (region_id : Nat) (file_id : String)
    (r : Except StoreErr (Option SstInfo)) :
    ∀ e ∈ resultTail region_id file_id r, ∃ m, e = WriteEvent.putMeta region_id file_id m := by
  cases r with
  | error e => simp [resultTail]
  | ok sst_info =>
    cases sst_info with
    | none => simp [resultTail, putMetaTail]
    | some si =>
      cases h : si.file_metadata with
      | none => simp [resultTail, putMetaTail, h]
      | some m => simp [resultTail, putMetaTail, h]

lemma write_sst_cache_eq (layer : AccessLayer) (pwB : ParquetWriterB) (s : FsState)
    (request : SstWriteRequest) (write_opts : WriteOptions) (wc : WriteCacheB)
    (hwc : request.cache_manager.write_cache = some wc) :
    layer.write_sst pwB s request write_opts =
      ((wc s (mkUploadRequest layer request) write_opts).1,
        WriteEvent.cacheWrite (mkUploadRequest layer request) ::
          resultTail request.metadata.region_id request.file_id
            (wc s (mkUploadRequest layer request) write_opts).2,
        (wc s (mkUploadRequest layer request) write_opts).2) := by
  rcases hr : wc s (mkUploadRequest layer request) write_opts with ⟨s1, r⟩
  cases r with
  | error e => simp [AccessLayer.write_sst, hwc, hr, resultTail]
  | ok sst_info => simp [AccessLayer.write_sst, hwc, hr, putMetaStep_eq, resultTail]

lemma write_sst_direct_eq (layer : AccessLayer) (pwB : ParquetWriterB) (s : FsState)
    (request : SstWriteRequest) (write_opts : WriteOptions)
    (hwc : request.cache_manager.write_cache = none) :
    layer.write_sst pwB s request write_opts =
      ((pwB s (sst_file_path layer.region_dir request.file_id)
          request.metadata request.source write_opts).1,
        WriteEvent.directWrite (sst_file_path layer.region_dir request.file_id)
            request.metadata request.source ::
          resultTail request.metadata.region_id request.file_id
            (pwB s (sst_file_path layer.region_dir request.file_id)
              request.metadata request.source write_opts).2,
        (pwB s (sst_file_path layer.region_dir request.file_id)
          request.metadata request.source write_opts).2) := by
  rcases hr : pwB s (sst_file_path layer.region_dir request.file_id)
      request.metadata request.source write_opts with ⟨s1, r⟩
  cases r with
  | error e => simp [AccessLayer.write_sst, hwc, hr, resultTail]
  | ok sst_info => simp [AccessLayer.write_sst, hwc, hr, putMetaStep_eq, resultTail]

lemma resultTail_countP_isCacheWrite (region_id : Nat) (file_id : String)
    (r : Except StoreErr (Option SstInfo)) :
    (resultTail region_id file_id r).countP (fun e => e.isCacheWrite) = 0 := by
  rw [List.countP_eq_zero]
  intro e he
  obtain ⟨m, rfl⟩ := resultTail_events region_id file_id r e he
  simp [WriteEvent.isCacheWrite]

lemma resultTail_countP_isDirectWrite (region_id : Nat) (file_id : String)
    (r : Except StoreErr (Option SstInfo)) :
    (resultTail region_id file_id r).countP (fun e => e.isDirectWrite) = 0 := by
  rw [List.countP_eq_zero]
  intro e he
  obtain ⟨m, rfl⟩ := resultTail_events region_id file_id r e he
  simp [WriteEvent.isDirectWrite]

/-- C3: `write_sst` delegates to the write cache exactly when the request's
cache manager supplies one (a pure presence check), and otherwise performs
a direct parquet write of the request's source to the SST path. Whatever
the collaborators do — success or failure — the trace holds exactly one
write event of the selected kind as its first element and none of the
other kind: there is no fallback from one path to the other. -/
theorem write_sst_branch_selection (layer : AccessLayer) (pwB : ParquetWriterB)
    (s : FsState) (request : SstWriteRequest) (write_opts : WriteOptions) :
    ((layer.write_sst pwB s request write_opts).2.1.countP (fun e => e.isCacheWrite) =
      if request.cache_manager.write_cache.isSome then 1 else 0) ∧
    ((layer.write_sst pwB s request write_opts).2.1.countP (fun e => e.isDirectWrite) =
      if request.cache_manager.write_cache.isSome then 0 else 1) ∧
    ((layer.write_sst pwB s request write_opts).2.1.head? =
      some (if request.cache_manager.write_cache.isSome then
          WriteEvent.cacheWrite (mkUploadRequest layer request)
        else
          WriteEvent.directWrite (sst_file_path layer.region_dir request.file_id)
            request.metadata request.source)) := by
  cases hwc : request.cache_manager.write_cache with
  | some wc =>
    rw [write_sst_cache_eq layer pwB s request write_opts wc hwc]
    simp only [hwc, Option.isSome_some, if_true, List.countP_cons, List.head?_cons,
      WriteEvent.isCacheWrite, WriteEvent.isDirectWrite, resultTail_countP_isCacheWrite,
      resultTail_countP_isDirectWrite]
    simp
    refine ⟨fun a ha => ?_, fun a ha => ?_⟩ <;>
      obtain ⟨m, rfl⟩ := resultTail_events _ _ _ a ha <;> rfl
  | none =>
    rw [write_sst_direct_eq layer pwB s request write_opts hwc]
    simp only [hwc, Option.isSome_none, if_false, List.countP_cons, List.head?_cons,
      WriteEvent.isCacheWrite, WriteEvent.isDirectWrite, resultTail_countP_isCacheWrite,
      resultTail_countP_isDirectWrite]
    simp
    refine ⟨fun a ha => ?_, fun a ha => ?_⟩ <;>
      obtain ⟨m, rfl⟩ := resultTail_events _ _ _ a ha <;> rfl

/-- C4: in every `write_sst` call the trace is one write event followed by
`resultTail`, which is empty whenever the underlying write failed or
returned no parsed file metadata, and is the single `putMeta` event keyed
by (region id, file id) exactly when the write succeeded with parsed
metadata present; moreover the cache-population step (`putMetaStep`) always
returns the branch result unchanged as a success, so a failure of cache
population cannot be propagated as a failure of the write. -/
theorem write_sst_meta_cache_discipline (layer : AccessLayer) (pwB : ParquetWriterB)
    (s : FsState) (request : SstWriteRequest) (write_opts : WriteOptions) :
    (∃ ev, ev.isWrite = true ∧
      (layer.write_sst pwB s request write_opts).2.1 =
        ev :: resultTail request.metadata.region_id request.file_id
          (layer.write_sst pwB s request write_opts).2.2 ∧
      (∀ e2 ∈ resultTail request.metadata.region_id request.file_id
          (layer.write_sst pwB s request write_opts).2.2,
        ∃ m, e2 = WriteEvent.putMeta request.metadata.region_id request.file_id m ∧
          ∃ si, (layer.write_sst pwB s request write_opts).2.2 = Except.ok (some si) ∧
            si.file_metadata = some m)) ∧
    (∀ (s2 : FsState) (trace : List WriteEvent) (region_id : Nat) (file_id : String)
        (sst_info : Option SstInfo),
      (putMetaStep s2 trace region_id file_id sst_info).2.2 = Except.ok sst_info) := by
  constructor
  · cases hwc : request.cache_manager.write_cache with
    | some wc =>
      rw [write_sst_cache_eq layer pwB s request write_opts wc hwc]
      refine ⟨WriteEvent.cacheWrite (mkUploadRequest layer request), rfl, rfl, ?_⟩
      intro e2 he2
      rcases hr : (wc s (mkUploadRequest layer request) write_opts).2 with e | sst_info
      · rw [hr] at he2
        simp [resultTail] at he2
      · rw [hr] at he2
        cases sst_info with
        | none => simp [resultTail, putMetaTail] at he2
        | some si =>
          cases hm : si.file_metadata with
          | none => simp [resultTail, putMetaTail, hm] at he2
          | some m =>
            simp [resultTail, putMetaTail, hm] at he2
            exact ⟨m, he2, si, rfl, hm⟩
    | none =>
      rw [write_sst_direct_eq layer pwB s request write_opts hwc]
      refine ⟨WriteEvent.directWrite (sst_file_path layer.region_dir request.file_id)
        request.metadata request.source, rfl, rfl, ?_⟩
      intro e2 he2
      rcases hr : (pwB s (sst_file_path layer.region_dir request.file_id)
          request.metadata request.source write_opts).2 with e | sst_info
      · rw [hr] at he2
        simp [resultTail] at he2
      · rw [hr] at he2
        cases sst_info with
        | none => simp [resultTail, putMetaTail] at he2
        | some si =>
          cases hm : si.file_metadata with
          | none => simp [resultTail, putMetaTail, hm] at he2
          | some m =>
            simp [resultTail, putMetaTail, hm] at he2
            exact ⟨m, he2, si, rfl, hm⟩
  · intro s2 trace region_id file_id sst_info
    rw [putMetaStep_eq]

/-- Witness for C4: a concrete direct write with one non-empty batch, where
the metadata-cache event is populated after the successful write. -/
theorem write_sst_meta_cache_discipline_witness :
    ∃ m, WriteEvent.putMeta 7 "f" 5 = WriteEvent.putMeta 7 "f" m ∧
      ∃ si, (AccessLayer.write_sst ⟨"r"⟩ parquetWriteAll FsState.empty
          { file_id := "f", metadata := ⟨7⟩, source := [5],
            cache_manager := ⟨none⟩, storage := none } ⟨⟩).2.2 = Except.ok (some si) ∧
        si.file_metadata = some m := by
  have h := (write_sst_meta_cache_discipline ⟨"r"⟩ parquetWriteAll FsState.empty
    { file_id := "f", metadata := ⟨7⟩, source := [5],
      cache_manager := ⟨none⟩, storage := none } ⟨⟩).1
  obtain ⟨ev, hw, htr, hall⟩ := h
  exact hall (WriteEvent.putMeta 7 "f" 5) (by decide)

/-- C10: on the direct-write branch (no write cache supplied), the only
write event of `write_sst` is the direct parquet write at the SST path:
the trace never touches the index file path (that path is only ever placed
inside a write-cache upload request), and the SST and index paths are
distinct. -/
theorem write_sst_direct_branch_frame (layer : AccessLayer) (pwB : ParquetWriterB)
    (s : FsState) (request : SstWriteRequest) (write_opts : WriteOptions)
    (hwc : request.cache_manager.write_cache = none) :
    ((layer.write_sst pwB s request write_opts).2.1.filter (fun e => e.isWrite) =
      [WriteEvent.directWrite (sst_file_path layer.region_dir request.file_id)
        request.metadata request.source]) ∧
    ((layer.write_sst pwB s request write_opts).2.1.countP
      (fun e => e.touches (index_file_path layer.region_dir request.file_id)) = 0) ∧
    sst_file_path layer.region_dir request.file_id ≠
      index_file_path layer.region_dir request.file_id := by
  rw [write_sst_direct_eq layer pwB s request write_opts hwc]
  refine ⟨?_, ?_, ?_⟩
  · rw [List.filter_cons]
    have hd : (WriteEvent.directWrite (sst_file_path layer.region_dir request.file_id)
        request.metadata request.source).isWrite = true := rfl
    rw [if_pos hd]
    have : (resultTail request.metadata.region_id request.file_id
        (pwB s (sst_file_path layer.region_dir request.file_id)
          request.metadata request.source write_opts).2).filter (fun e => e.isWrite) = [] := by
      rw [List.filter_eq_nil_iff]
      intro e he
      obtain ⟨m, rfl⟩ := resultTail_events _ _ _ e he
      simp [WriteEvent.isWrite, WriteEvent.isCacheWrite, WriteEvent.isDirectWrite]
    rw [this]
  · rw [List.countP_cons]
    have h0 : (resultTail request.metadata.region_id request.file_id
        (pwB s (sst_file_path layer.region_dir request.file_id)
          request.metadata request.source write_opts).2).countP
        (fun e => e.touches (index_file_path layer.region_dir request.file_id)) = 0 := by
      rw [List.countP_eq_zero]
      intro e he
      obtain ⟨m, rfl⟩ := resultTail_events _ _ _ e he
      simp [WriteEvent.touches]
    rw [h0]
    have hne : ((WriteEvent.directWrite (sst_file_path layer.region_dir request.file_id)
        request.metadata request.source).touches
          (index_file_path layer.region_dir request.file_id)) = false := by
      simp [WriteEvent.touches, sst_file_path, index_file_path]
    simp [hne]
  · simp [sst_file_path, index_file_path]

/-- Witness for C10 at a concrete direct-write request. -/
theorem write_sst_direct_branch_frame_witness :
    ((AccessLayer.write_sst ⟨"r"⟩ parquetWriteAll FsState.empty
        { file_id := "f", metadata := ⟨7⟩, source := [5],
          cache_manager := ⟨none⟩, storage := none } ⟨⟩).2.1.filter (fun e => e.isWrite) =
      [WriteEvent.directWrite (sst_file_path "r" "f") ⟨7⟩ [5]]) ∧
    ((AccessLayer.write_sst ⟨"r"⟩ parquetWriteAll FsState.empty
        { file_id := "f", metadata := ⟨7⟩, source := [5],
          cache_manager := ⟨none⟩, storage := none } ⟨⟩).2.1.countP
      (fun e => e.touches (index_file_path "r" "f")) = 0) ∧
    sst_file_path "r" "f" ≠ index_file_path "r" "f" :=
  write_sst_direct_branch_frame ⟨"r"⟩ parquetWriteAll FsState.empty
    { file_id := "f", metadata := ⟨7⟩, source := [5],
      cache_manager := ⟨none⟩, storage := none } ⟨⟩ rfl

/-- C2: a `write_sst` whose source yields zero row batches returns
`Ok none` — not an error — and leaves the store unchanged, so in
particular no file is created at the computed SST path, on both branches
(direct parquet write, or a write cache honoring the spec's result
contract). -/
theorem write_sst_empty_source (layer : AccessLayer) (s : FsState)
    (request : SstWriteRequest) (write_opts : WriteOptions)
    (hsrc : request.source = [])
    (hwc : request.cache_manager.write_cache = none ∨
      request.cache_manager.write_cache = some writeCacheModel) :
    (layer.write_sst parquetWriteAll s request write_opts).2.2 = Except.ok none ∧
    (layer.write_sst parquetWriteAll s request write_opts).1 = s ∧
    (layer.write_sst parquetWriteAll s request write_opts).1.read
        (sst_file_path layer.region_dir request.file_id) =
      s.read (sst_file_path layer.region_dir request.file_id) := by
  rcases hwc with hwc | hwc
  · rw [write_sst_direct_eq layer parquetWriteAll s request write_opts hwc]
    simp [parquetWriteAll, hsrc]
  · rw [write_sst_cache_eq layer parquetWriteAll s request write_opts writeCacheModel hwc]
    simp [writeCacheModel, mkUploadRequest, hsrc]

/-- Witness for C2: an empty source on the direct branch. -/
theorem write_sst_empty_source_witness :
    (AccessLayer.write_sst ⟨"r"⟩ parquetWriteAll FsState.empty
        { file_id := "f", metadata := ⟨7⟩, source := [],
          cache_manager := ⟨none⟩, storage := none } ⟨⟩).2.2 = Except.ok none ∧
    (AccessLayer.write_sst ⟨"r"⟩ parquetWriteAll FsState.empty
        { file_id := "f", metadata := ⟨7⟩, source := [],
          cache_manager := ⟨none⟩, storage := none } ⟨⟩).1 = FsState.empty ∧
    (AccessLayer.write_sst ⟨"r"⟩ parquetWriteAll FsState.empty
        { file_id := "f", metadata := ⟨7⟩, source := [],
          cache_manager := ⟨none⟩, storage := none } ⟨⟩).1.read
        (sst_file_path "r" "f") =
      FsState.empty.read (sst_file_path "r" "f") :=
  write_sst_empty_source ⟨"r"⟩ FsState.empty
    { file_id := "f", metadata := ⟨7⟩, source := [],
      cache_manager := ⟨none⟩, storage := none } ⟨⟩ rfl (Or.inl rfl)

lemma filter_pos_of_filter_neg {α : Type} (l : List α) (q : α → Bool) :
    (l.filter (fun a => !(q a))).filter (fun a => q a) = [] := by
  induction l with
  | nil => simp
  | cons a t ih =>
    by_cases h : q a
    · simp [List.filter_cons, h, ih]
    · simp only [Bool.not_eq_true] at h
      simp [List.filter_cons, h, ih]

lemma filter_neg_idem {α : Type} (l : List α) (q : α → Bool) :
    ((l.filter (fun a => !(q a))).filter (fun a => !(q a))) =
      l.filter (fun a => !(q a)) := by
  induction l with
  | nil => simp
  | cons a t ih =>
    by_cases h : q a
    · simp [List.filter_cons, h, ih]
    · simp only [Bool.not_eq_true] at h
      simp [List.filter_cons, h, ih]

lemma list_remove_all_eq_nil (s : FsState) (p : StorePath) :
    (s.remove_all p).list p = [] := by
  unfold FsState.remove_all FsState.list
  simp only
  rw [filter_pos_of_filter_neg s.dirs (fun d => underPath p d),
    filter_pos_of_filter_neg s.files (fun f => underPath p f.1)]
  simp

lemma remove_all_idem (s : FsState) (p : StorePath) :
    (s.remove_all p).remove_all p = s.remove_all p := by
  unfold FsState.remove_all
  simp only
  rw [filter_neg_idem s.files (fun f => underPath p f.1),
    filter_neg_idem s.dirs (fun d => underPath p d)]

lemma underPath_refl (p : StorePath) : underPath p p = true := by
  unfold underPath
  induction p with
  | nil => rfl
  | cons a t ih => simp [List.isPrefixOf, ih]

lemma contains_filter_not_self (l : List StorePath) (p : StorePath) :
    (l.filter (fun d => !(underPath p d))).contains p = false := by
  induction l with
  | nil => rfl
  | cons a t ih =>
    by_cases h : underPath p a
    · simp [List.filter_cons, h, underPath_refl]
    · have hpa : p ≠ a := by
        rintro rfl
        exact h (underPath_refl p)
      simp [List.filter_cons, h, hpa, underPath_refl]

/-- C7: `cleanup` succeeds, after it the build's scoped root lists as
empty no matter how many columns and runs were created, a repeated
`cleanup` on the already-clean state also succeeds with the same (clean)
state, and `cleanup` of an empty store succeeds. -/
theorem cleanup_empties_root_idempotent (p : TempFileProvider) (s : FsState) :
    ∃ s1, p.cleanup s = Except.ok s1 ∧
      s1.list p.location.root_path = [] ∧
      p.cleanup s1 = Except.ok s1 ∧
      p.cleanup FsState.empty = Except.ok FsState.empty := by
  refine ⟨s.remove_all p.location.root_path, rfl, list_remove_all_eq_nil s _, ?_, rfl⟩
  unfold TempFileProvider.cleanup
  rw [remove_all_idem]

lemma clean_dir_list_nil (s : FsState) (dir : StorePath) :
    ∃ s1, clean_dir s dir = Except.ok s1 ∧ s1.list dir = [] ∧
      clean_dir s1 dir = Except.ok s1 := by
  by_cases hc : ((s.list dir != []) || s.dirs.contains dir) = true
  · refine ⟨s.remove_all dir, ?_, list_remove_all_eq_nil s dir, ?_⟩
    · unfold clean_dir
      rw [if_pos hc]
    · unfold clean_dir
      have hcontains : (s.remove_all dir).dirs.contains dir = false := by
        show (s.dirs.filter (fun d => !(underPath dir d))).contains dir = false
        exact contains_filter_not_self s.dirs dir
      have hlist : ((s.remove_all dir).list dir != []) = false := by
        rw [list_remove_all_eq_nil s dir]
        rfl
      rw [if_neg (by rw [hlist, hcontains]; simp)]
  · have hsplit : (s.list dir != []) = false ∧ s.dirs.contains dir = false := by
      rcases h1 : (s.list dir != []) <;> rcases h2 : s.dirs.contains dir <;>
        simp_all
    have hnil : s.list dir = [] := by
      have := hsplit.1
      simpa using this
    refine ⟨s, ?_, hnil, ?_⟩ <;>
      · unfold clean_dir
        rw [if_neg hc]

/-- C9: `new_fs_object_store` establishes the `.tmp/` staging subdirectory
under the root — registered as the store's atomic-write directory — after
clearing any pre-existing contents of it, and returns the instrumented
store; calling it twice in a row succeeds both times and leaves the
staging subdirectory listing empty both times. -/
theorem new_fs_object_store_staging (root : String) (s : FsState) :
    ∃ st s1, new_fs_object_store root s = Except.ok (st, s1) ∧
      st.root = root ∧
      st.atomic_write_dir = atomicWriteDir root ∧
      st.instrumented = true ∧
      s1.list (atomicWriteDir root) = [] ∧
      new_fs_object_store root s1 = Except.ok (st, s1) := by
  obtain ⟨s1, h1, h2, h3⟩ := clean_dir_list_nil s (atomicWriteDir root)
  refine ⟨⟨root, atomicWriteDir root, true⟩, s1, ?_, rfl, rfl, rfl, h2, ?_⟩
  · unfold new_fs_object_store
    rw [h1]
  · unfold new_fs_object_store
    rw [h3]

lemma read_all_go_spec (s : FsState) (entries : List Entry) :
    ∀ (warns : List StorePath) (readers : List ByteSeq),
    (∀ e ∈ entries, e.is_dir = false → (s.read e.path).isSome) →
    read_all_go s entries warns readers =
      (warns.reverse ++ (entries.filter (fun e => e.is_dir)).map Entry.path,
        Except.ok (readers.reverse ++ (entries.filter (fun e => !e.is_dir)).map
          (fun e => (s.read e.path).getD []))) := by
  induction entries with
  | nil => intro warns readers h; simp [read_all_go]
  | cons e rest ih =>
    intro warns readers h
    cases hd : e.is_dir with
    | true =>
      rw [read_all_go, if_pos (by rw [hd])]
      rw [ih (e.path :: warns) readers (fun e2 he2 => h e2 (List.mem_cons_of_mem e he2))]
      simp [hd]
    | false =>
      have hs := h e (List.mem_cons_self e rest) hd
      obtain ⟨b, hb⟩ := Option.isSome_iff_exists.mp hs
      rw [read_all_go, if_neg (by rw [hd]; exact Bool.false_ne_true)]
      rw [hb]
      change read_all_go s rest warns (b :: readers) = _
      rw [ih warns (b :: readers) (fun e2 he2 => h e2 (List.mem_cons_of_mem e he2))]
      simp [hd, hb]

lemma list_entries_readable (s : FsState) (p : StorePath) :
    ∀ e ∈ s.list p, e.is_dir = false → (s.read e.path).isSome := by
  intro e he hd
  unfold FsState.list at he
  rw [List.mem_append] at he
  rcases he with he | he
  · obtain ⟨d, hd2, rfl⟩ := List.mem_map.mp he
    simp at hd
  · obtain ⟨f, hf, rfl⟩ := List.mem_map.mp he
    have hf2 : f ∈ s.files := (List.mem_filter.mp hf).1
    have hfind : (s.files.find? (fun g => g.1 == f.1)).isSome := by
      rw [List.find?_isSome]
      exact ⟨f, hf2, by simp⟩
    simpa [FsState.read] using hfind

/-- C6: `read_all` lists the column's scoped path; its warning diagnostics
are exactly the directory-classified entries (skipped, not failed), and it
succeeds with one read handle per remaining entry — in particular, an
empty listing yields `Ok []`, not an error. -/
theorem read_all_skips_dirs_succeeds (p : TempFileProvider) (s : FsState)
    (column_id : String) :
    (p.read_all s column_id).1 =
      ((s.list (p.location.column_path column_id)).filter
        (fun e => e.is_dir)).map Entry.path ∧
    (p.read_all s column_id).2 =
      Except.ok (((s.list (p.location.column_path column_id)).filter
        (fun e => !e.is_dir)).map (fun e => (s.read e.path).getD [])) := by
  unfold TempFileProvider.read_all
  rw [read_all_go_spec s _ [] []
    (list_entries_readable s (p.location.column_path column_id))]
  simp

lemma underPath_append (p q : StorePath) : underPath p (p ++ q) = true := by
  unfold underPath
  induction p with
  | nil => simp [List.isPrefixOf]
  | cons a t ih => simp [List.isPrefixOf, ih]

/-- C8: writing a byte sequence through the handle returned by
`create(column, run)` (write, flush, close) and reading the column back
with `read_all` yields exactly those bytes: starting from an empty store,
`read_all` returns no warnings and the single reader holding `b`. -/
theorem create_write_read_all_roundtrip (loc : IntermediateLocation)
    (column_id : String) (run_id : String) (b : ByteSeq) (hb : b ≠ []) :
    TempFileProvider.read_all ⟨loc⟩
        (writeThrough FsState.empty (TempFileProvider.create ⟨loc⟩ column_id run_id) b)
        column_id = ([], Except.ok [b]) := by
  have hlist : (writeThrough FsState.empty
      (TempFileProvider.create ⟨loc⟩ column_id run_id) b).list
      (loc.column_path column_id) = [⟨loc.file_path column_id run_id, false⟩] := by
    unfold writeThrough FsState.writeFile TempFileProvider.create FsState.empty FsState.list
    simp only [List.filter_nil, List.map_nil, List.nil_append, List.filter_cons]
    have hu : underPath (loc.column_path column_id) (loc.file_path column_id run_id) = true := by
      show underPath (loc.column_path column_id)
        (loc.column_path column_id ++ [run_id]) = true
      exact underPath_append (loc.column_path column_id) [run_id]
    simp [hu]
  have hread : (writeThrough FsState.empty
      (TempFileProvider.create ⟨loc⟩ column_id run_id) b).read
      (loc.file_path column_id run_id) = some b := by
    unfold writeThrough FsState.writeFile TempFileProvider.create FsState.empty FsState.read
    simp [List.find?]
  unfold TempFileProvider.read_all
  rw [hlist]
  rw [read_all_go, if_neg (by exact Bool.false_ne_true)]
  rw [hread]
  change read_all_go _ [] [] [b] = _
  rw [read_all_go]
  rfl

/-- Witness for C8: the concrete scenario of the source's test — writing
"hello" (as bytes) for `(tag0, 0000000010)` and reading `tag0` back. -/
theorem create_write_read_all_roundtrip_witness :
    ([104, 101, 108, 108, 111] : ByteSeq) ≠ [] ∧
    TempFileProvider.read_all ⟨⟨"region_dir", "sst0"⟩⟩
        (writeThrough FsState.empty
          (TempFileProvider.create ⟨⟨"region_dir", "sst0"⟩⟩ "tag0" "0000000010")
          [104, 101, 108, 108, 111])
        "tag0" = ([], Except.ok [[104, 101, 108, 108, 111]]) :=
  ⟨by decide, create_write_read_all_roundtrip ⟨"region_dir", "sst0"⟩ "tag0" "0000000010"
    [104, 101, 108, 108, 111] (by decide)⟩
